import Mathlib

/-!
Verification development for the cognitive_framing_research repository.

The Python sources are shallowly embedded here:
* `src/concepts/concept_definitions.py` — `Concept`, `CONCEPTS`, `get_concept_by_id`;
* `src/canonicalization/canonicalization.py` — `TextSegment`;
* `src/concept_assignment/concept_assignment.py` — `ConceptInstance`,
  `ConceptAssigner` (keyword scoring, embedding similarity, thresholding,
  batch assignment);
* `src/representation/representation_extraction.py` — `Representation`,
  keyword extraction;
* `src/analysis/comparative_analysis.py` — `ComparisonResult`,
  `ComparativeAnalyzer` (source similarity, lexical patterns, coverage).

Python floats are modelled as `ℚ` where the code only manipulates literal
fractions (keyword scoring) and as `ℝ` where genuine vector geometry enters
(embeddings, cosine similarity).  Python strings are modelled as `String` /
`List Char`, dictionaries as insertion-ordered association lists (which is
exactly the iteration semantics of Python 3.7+ dicts), and functions that
raise as `Except String`.
-/

namespace CogFrame

/-! ## Low-level text utilities shared by several layers -/

/-- A character matched by the regex class `\w` (ASCII reading: alphanumeric
or underscore), as used in `re.sub(r'[^\w\s]', ' ', text)`. -/
def isWordChar (c : Char) : Bool := c.isAlphanum || c == '_'

/-- `text.lower()` followed by `re.sub(r'[^\w\s]', ' ', text)`: lowercase,
then replace every character that is neither a word character nor whitespace
by a single space.  This is the body of both
`ConceptAssigner._normalize_text_for_keywords` and
`RepresentationExtractor._normalize_text` (the two sources are identical). -/
def pyNormalizeText (cs : List Char) : List Char :=
  (cs.map Char.toLower).map fun c =>
    if isWordChar c || c.isWhitespace then c else ' '

/-- Helper for `splitWS`: accumulates the current (reversed) token. -/
def splitWSAux : List Char → List Char → List (List Char)
  | [], cur => if cur.isEmpty then [] else [cur.reverse]
  | c :: cs, cur =>
    if c.isWhitespace then
      if cur.isEmpty then splitWSAux cs [] else cur.reverse :: splitWSAux cs []
    else
      splitWSAux cs (c :: cur)

/-- Python's `str.split()` with no argument: split on runs of whitespace and
drop empty pieces. -/
def splitWS (cs : List Char) : List (List Char) := splitWSAux cs []

/-- `p` occurs as a contiguous substring at the start of `s`. -/
def isPrefixB : List Char → List Char → Bool
  | [], _ => true
  | _ :: _, [] => false
  | a :: as, b :: bs => a == b && isPrefixB as bs

/-- Python's substring containment `p in s` on strings: `p` occurs as a
contiguous substring of `s` (anywhere, including inside a longer word). -/
def substrIn (p : List Char) : List Char → Bool
  | [] => p.isEmpty
  | c :: t => isPrefixB p (c :: t) || substrIn p t

/-- Python `set.add`: insert if absent.  The list stays duplicate-free and
records insertion order (only membership is ever consumed). -/
def setInsert (l : List (List Char)) (w : List Char) : List (List Char) :=
  if w ∈ l then l else l ++ [w]

/-- Python `set.update` with an iterable of words. -/
def setUnionWords (l : List (List Char)) (ws : List (List Char)) : List (List Char) :=
  ws.foldl setInsert l

/-- Lowercase a string (Python `str.lower()`, ASCII reading). -/
def strLower (s : String) : String := String.mk (s.data.map Char.toLower)

/-! ## Concept definitions (`src/concepts/concept_definitions.py`) -/

/-- The `Concept` dataclass (architecture section 3.3).  The Python
`metadata: Dict[str, Any]` field carries only provenance notes and is never
read by the embedded operations; it is modelled as a key/value list. -/
structure Concept where
  id : String
  name : String
  description : String
  inclusion_criteria : List String
  exclusion_criteria : List String
  seed_terms : List String
  metadata : List (String × String)

/-- The single entry of the `CONCEPTS` registry, with the 44 seed terms of
`income_wealth_inequality` as written in the source. -/
def incomeWealthInequality : Concept :=
  { id := "income_wealth_inequality"
    name := "Income and Wealth Inequality"
    description :=
      "Discussions of income and wealth inequality, including disparities " ++
      "in earnings, assets, economic opportunity, and distribution of resources. " ++
      "This concept focuses on how inequality is represented, measured, discussed, " ++
      "and framed across different sources and time periods."
    inclusion_criteria :=
      [ "Discusses income inequality, wage gaps, or earnings disparities"
      , "Addresses wealth inequality, asset distribution, or wealth gaps"
      , "Mentions economic inequality, economic disparity, or distribution of resources"
      , "References measures of inequality (Gini coefficient, income quintiles, etc.)"
      , "Discusses policies, trends, or analysis related to economic inequality"
      , "Compares economic outcomes across different groups (by income, class, etc.)"
      , "Discusses social mobility, economic opportunity, or access to resources"
      , "Mentions the middle class, working class, or economic stratification" ]
    exclusion_criteria :=
      [ "Articles that only mention inequality in passing without substantive discussion"
      , "Articles focused solely on specific policy proposals without inequality context"
      , "Articles about inequality in non-economic contexts (e.g., health outcomes alone)"
      , "Articles that mention 'inequality' but are actually about other topics"
      , "Brief mentions without analysis or discussion of inequality patterns" ]
    seed_terms :=
      [ "income inequality", "wealth inequality", "economic inequality"
      , "wage gap", "wealth gap", "income gap", "economic disparity"
      , "wealth disparity", "income distribution", "wealth distribution"
      , "gini coefficient", "income quintile", "wealth quintile"
      , "top 1%", "top 10%", "bottom 50%", "poverty line"
      , "average income", "median income", "average wealth", "median wealth"
      , "economic mobility", "social mobility", "class divide"
      , "economic stratification", "wealth concentration", "economic opportunity"
      , "tax inequality", "wealth tax", "minimum wage", "living wage"
      , "economic justice", "economic fairness"
      , "inequality", "wealth", "income", "wage", "gap", "disparity"
      , "distribution", "gini", "poverty", "mobility", "stratification"
      , "concentration", "opportunity", "tax reform" ]
    metadata :=
      [ ("created_at", "2025-01-27"), ("version", "1.0")
      , ("notes", "Initial concept definition for income/wealth inequality") ] }

/-- The module-level `CONCEPTS` dictionary. -/
def CONCEPTS : List (String × Concept) :=
  [("income_wealth_inequality", incomeWealthInequality)]

/-- `get_concept_by_id`: raises `ValueError` when the id is not a key of
`CONCEPTS`, modelled as `Except.error`. -/
def getConceptById (concept_id : String) : Except String Concept :=
  match CONCEPTS.find? (fun p => p.1 == concept_id) with
  | some p => Except.ok p.2
  | none => Except.error ("Concept '" ++ concept_id ++ "' not found.")

/-! ## Text segments (`src/canonicalization/canonicalization.py`) -/

/-- The `TextSegment` dataclass (architecture section 3.2). -/
structure TextSegment where
  id : String
  document_id : String
  text : String
  position : ℤ
  metadata : List (String × String)

/-! ## Keyword scoring (`ConceptAssigner._keyword_match_score`) -/

/-- One iteration of the seed-term loop in `_keyword_match_score`.  The state
is `(phrase_matches, all_seed_words)`.  For each term (lowercased):
verbatim substring of the normalized text counts as a phrase match;
otherwise a multi-word term counts as a phrase match when all its words are
in the token set, and its words are collected as partial-match candidates;
otherwise a single-word term counts as a phrase match on token-set
membership and is collected as a partial-match candidate. -/
def kwStep (normalizedText : List Char) (words : List (List Char))
    (st : ℕ × List (List Char)) (term : String) : ℕ × List (List Char) :=
  let normalizedTerm := term.data.map Char.toLower
  if substrIn normalizedTerm normalizedText then
    (st.1 + 1, st.2)
  else if normalizedTerm.contains ' ' then
    let termWords := splitWS normalizedTerm
    let pm := if termWords.all (fun w => words.contains w) then st.1 + 1 else st.1
    (pm, setUnionWords st.2 termWords)
  else
    let pm := if words.contains normalizedTerm then st.1 + 1 else st.1
    (pm, setInsert st.2 normalizedTerm)

/-- The integer layer of `_keyword_match_score`: the pair
`(phrase_matches, word_matches)` obtained from the seed-term loop, where
`word_matches` is the number of collected seed words that occur in the
text's token set. -/
def kwCounts (text : String) (concept : Concept) : ℕ × ℕ :=
  let normalizedText := pyNormalizeText text.data
  let words := splitWS normalizedText
  let st := concept.seed_terms.foldl (kwStep normalizedText words) (0, [])
  (st.1, (st.2.filter (fun w => words.contains w)).length)

/-- `ConceptAssigner._keyword_match_score`.  Every float literal of the
source is an exact decimal, so the score is computed in `ℚ`. -/
def keywordMatchScore (text : String) (concept : Concept) : ℚ :=
  let totalTerms := concept.seed_terms.length
  if totalTerms = 0 then 0
  else
    let pw := kwCounts text concept
    let phraseMatches := pw.1
    let wordMatches := pw.2
    let matchCount : ℚ :=
      if phraseMatches = 0 ∧ 2 ≤ wordMatches then 1
      else if phraseMatches = 0 ∧ wordMatches = 1 then 0.5
      else (phraseMatches : ℚ)
    if matchCount = 0 then 0
    else
      let base : ℚ :=
        if matchCount = 0.5 then 0.15
        else if matchCount = 1 then 0.3
        else if matchCount = 2 then 0.5
        else if matchCount = 3 then 0.65
        else if 4 ≤ matchCount then 0.8 + min 0.2 ((matchCount - 4) * 0.05)
        else 0
      -- the final 0 is unreachable: at this point `matchCount` is either 0.5 or
      -- a positive integer, so one of the listed branches fires
      let base := if 0.1 < matchCount / (totalTerms : ℚ) then min 1 (base + 0.1) else base
      min 1 base

/-! ## The concept assigner (`src/concept_assignment/concept_assignment.py`)

The neural encoder (`SentenceTransformer.encode`) is not part of this
repository; it is abstracted as a function `encode : String → V` into a real
inner product space carried by the assigner, which is exactly the interface
the source consumes (`np.dot`, `np.linalg.norm` on the returned vectors).
The embedding cache `_concept_embeddings_cache` is dropped: caching a pure
function is observationally the identity. -/

/-- `ConceptAssigner`'s configuration state after `__init__`. -/
structure ConceptAssigner (V : Type) where
  keywordWeight : ℝ
  embeddingWeight : ℝ
  minConfidence : ℝ
  useEmbeddings : Bool
  encode : String → V

/-- Default of the `keyword_weight` parameter of `ConceptAssigner.__init__`. -/
def defaultKeywordWeight : ℝ := 0.4

/-- Default of the `embedding_weight` parameter of `ConceptAssigner.__init__`. -/
def defaultEmbeddingWeight : ℝ := 0.6

/-- Default of the `min_confidence` parameter of `ConceptAssigner.__init__`. -/
def defaultMinConfidence : ℝ := 0.5

/-- `ConceptAssigner.__init__`: stores the weights and threshold, and sets
`self.use_embeddings = use_embeddings and EMBEDDINGS_AVAILABLE` (further
forced to `False` when the model fails to load; `embeddingsAvailable`
models the conjunction of both environment conditions). -/
def mkConceptAssigner {V : Type} (keyword_weight embedding_weight min_confidence : ℝ)
    (use_embeddings embeddingsAvailable : Bool) (encode : String → V) :
    ConceptAssigner V :=
  { keywordWeight := keyword_weight
    embeddingWeight := embedding_weight
    minConfidence := min_confidence
    useEmbeddings := use_embeddings && embeddingsAvailable
    encode := encode }

/-- `ConceptAssigner._check_exclusion_criteria`: the source builds a
normalized text and a fixed `exclusion_indicators` list but then returns
`False` unconditionally ("for now, we'll be lenient"). -/
def checkExclusionCriteria (_text : String) (_concept : Concept) : Bool :=
  false

/-- The representative text built by `_get_concept_embedding`:
`description + ". " + first 3 inclusion criteria + " " + first 10 seed terms`. -/
def conceptText (c : Concept) : String :=
  c.description ++ ". " ++ String.intercalate " " (c.inclusion_criteria.take 3)
    ++ " " ++ String.intercalate " " (c.seed_terms.take 10)

variable {V : Type} [NormedAddCommGroup V] [InnerProductSpace ℝ V]

/-- `np.dot(u, v) / (np.linalg.norm(u) * np.linalg.norm(v))`. -/
noncomputable def cosineSimilarity (u v : V) : ℝ :=
  (inner u v : ℝ) / (‖u‖ * ‖v‖)

/-- `ConceptAssigner._embedding_similarity_score`: 0 when embeddings are
disabled, otherwise the cosine similarity of the text embedding and the
concept embedding, clamped from below at 0 (`max(0.0, similarity)`). -/
noncomputable def embeddingSimilarityScore (a : ConceptAssigner V) (text : String)
    (concept : Concept) : ℝ :=
  if a.useEmbeddings then
    max 0 (cosineSimilarity (a.encode text) (a.encode (conceptText concept)))
  else 0

/-- The keyword score as the Python float seen by `assign_concept`. -/
noncomputable def keywordScoreR (text : String) (concept : Concept) : ℝ :=
  ((keywordMatchScore text concept : ℚ) : ℝ)

/-- Step 4 of `assign_concept`: the combined score
(`keyword_weight * keyword_score + embedding_weight * embedding_score` in
hybrid mode, the bare keyword score in keyword-only mode). -/
noncomputable def combinedScore (a : ConceptAssigner V) (text : String)
    (concept : Concept) : ℝ :=
  if a.useEmbeddings then
    a.keywordWeight * keywordScoreR text concept
      + a.embeddingWeight * embeddingSimilarityScore a text concept
  else keywordScoreR text concept

/-- The `assignment_method` string chosen in step 4 of `assign_concept`. -/
def assignmentMethodOf (useEmb : Bool) : String :=
  if useEmb then "hybrid" else "keyword"

/-- The metadata dictionary attached to a `ConceptInstance`; each key that
may be absent or `None` is an `Option` (`dict.get` semantics).  The
`document_id` key is not written by `assign_concept`; the analysis layer
reads it from instances that went through the parquet round trip. -/
structure InstanceMetadata where
  keyword_score : Option ℝ
  embedding_score : Option ℝ
  text_length : Option ℕ
  text_preview : Option String
  document_id : Option String

/-- The `ConceptInstance` dataclass (architecture section 3.3). -/
structure ConceptInstance where
  concept_id : String
  text_segment_id : String
  confidence : ℝ
  assignment_method : String
  metadata : InstanceMetadata

/-- `text[:200] + '...' if len(text) > 200 else text`. -/
def textPreviewOf (t : String) : String :=
  if 200 < t.data.length then String.mk (t.data.take 200) ++ "..." else t

/-- `ConceptAssigner.assign_concept`: exclusion check, scoring, threshold,
and emission of the instance with its audit metadata. -/
noncomputable def assignConcept (a : ConceptAssigner V) (seg : TextSegment)
    (c : Concept) : Option ConceptInstance :=
  if checkExclusionCriteria seg.text c then none
  else if combinedScore a seg.text c < a.minConfidence then none
  else some
    { concept_id := c.id
      text_segment_id := seg.id
      confidence := combinedScore a seg.text c
      assignment_method := assignmentMethodOf a.useEmbeddings
      metadata :=
        { keyword_score := some (keywordScoreR seg.text c)
          embedding_score :=
            if a.useEmbeddings then some (embeddingSimilarityScore a seg.text c)
            else none
          text_length := some seg.text.data.length
          text_preview := some (textPreviewOf seg.text)
          document_id := none } }

/-- The nested loop of `assign_all_concepts` over already-resolved concepts:
every `(segment, concept)` pair in order, keeping the emitted instances. -/
noncomputable def assignAllConceptsCore (a : ConceptAssigner V)
    (segs : List TextSegment) (cs : List Concept) : List ConceptInstance :=
  segs.flatMap fun seg => cs.filterMap fun c => assignConcept a seg c

/-- The list comprehension `[get_concept_by_id(cid) for cid in concept_ids]`:
resolves every id, raising (as `Except.error`) on the first unknown id
before any instance is produced. -/
def resolveConcepts : List String → Except String (List Concept)
  | [] => Except.ok []
  | cid :: rest =>
    match getConceptById cid with
    | Except.error e => Except.error e
    | Except.ok c =>
      match resolveConcepts rest with
      | Except.error e => Except.error e
      | Except.ok cs => Except.ok (c :: cs)

/-- `ConceptAssigner.assign_all_concepts`. -/
noncomputable def assignAllConcepts (a : ConceptAssigner V)
    (segs : List TextSegment) (concept_ids : List String) :
    Except String (List ConceptInstance) :=
  match resolveConcepts concept_ids with
  | Except.error e => Except.error e
  | Except.ok cs => Except.ok (assignAllConceptsCore a segs cs)

/-! ## Representation extraction (`src/representation/representation_extraction.py`) -/

/-- The `Representation` dataclass (architecture section 3.4).  Its
`metadata` dict carries derived statistics never read back by the analysis
layer and is omitted. -/
structure Representation (V : Type) where
  concept_instance_id : String
  embedding : Option V
  keywords : List String
  frame_summary : Option String

/-- `RepresentationExtractor`'s configuration state after `__init__`. -/
structure RepresentationExtractor where
  use_embeddings : Bool
  extract_keywords : Bool
  keyword_count : ℕ

/-- Default of the `keyword_count` parameter of
`RepresentationExtractor.__init__`. -/
def defaultKeywordCount : ℕ := 10

/-- `RepresentationExtractor.__init__`. -/
def mkRepresentationExtractor (use_embeddings extract_keywords : Bool)
    (keyword_count : ℕ) (embeddingsAvailable : Bool) : RepresentationExtractor :=
  { use_embeddings := use_embeddings && embeddingsAvailable
    extract_keywords := extract_keywords
    keyword_count := keyword_count }

/-- The fixed stop-word set of `_extract_keywords`, in source order. -/
def stopWords : List String :=
  [ "the", "a", "an", "and", "or", "but", "in", "on", "at", "to", "for"
  , "of", "with", "by", "from", "as", "is", "was", "are", "were", "be"
  , "been", "being", "have", "has", "had", "do", "does", "did", "will"
  , "would", "could", "should", "may", "might", "must", "can", "this"
  , "that", "these", "those", "it", "its", "they", "them", "their"
  , "we", "our", "you", "your", "he", "she", "his", "her", "said"
  , "says", "say", "according", "also", "more", "most", "very", "much" ]

/-- The stop-word set after `stop_words.update(word.lower() for word in
exclude_words)` (a `None` or empty exclusion list adds nothing). -/
def stopSet (excludeWords : List String) : List (List Char) :=
  (stopWords ++ excludeWords.map strLower).map String.data

/-- The token filter of `_extract_keywords`:
`len(w) > 2 and w not in stop_words`. -/
def keptToken (excludeWords : List String) (w : List Char) : Bool :=
  decide (2 < w.length) && !((stopSet excludeWords).contains w)

/-- The filtered token list `words` of `_extract_keywords`. -/
def filteredTokens (text : String) (excludeWords : List String) : List (List Char) :=
  (splitWS (pyNormalizeText text.data)).filter (keptToken excludeWords)

/-- Append the elements of a list to an accumulator, keeping only first
occurrences.  Applied to a token list this returns the distinct tokens in
first-occurrence order, which is both the key order of a Python dict or
`collections.Counter` built by iterating that token list, and the insertion
order of the source-grouping dictionaries of the analysis layer. -/
def firstDedup {α : Type} [DecidableEq α] (l : List α) : List α :=
  l.foldl (fun acc a => if a ∈ acc then acc else acc ++ [a]) []

/-- `collections.Counter(words)` as an association list: the distinct words
in first-occurrence order, each with its number of occurrences. -/
def tokenCounter (ws : List (List Char)) : List (List Char × ℕ) :=
  (firstDedup ws).map fun w => (w, ws.count w)

/-- Pair every list element with its position. -/
def withIdx {α : Type} : ℕ → List α → List (ℕ × α)
  | _, [] => []
  | i, a :: l => (i, a) :: withIdx (i + 1) l

/-- The ordering used to model Python's stable descending sort by count:
strictly larger count first; on equal counts, smaller original position
first.  On position-tagged entries with distinct positions this is a linear
order, so any sort with respect to it computes exactly the stable sort. -/
def rankRel {α : Type} (a b : ℕ × α × ℕ) : Prop :=
  b.2.2 < a.2.2 ∨ (a.2.2 = b.2.2 ∧ a.1 ≤ b.1)

instance {α : Type} : DecidableRel (@rankRel α) := fun a b => by
  unfold rankRel; infer_instance

instance {α : Type} : IsTotal (ℕ × α × ℕ) rankRel :=
  ⟨by intro a b; unfold rankRel; omega⟩

instance {α : Type} : IsTrans (ℕ × α × ℕ) rankRel :=
  ⟨by intro a b c; unfold rankRel; omega⟩

/-- `sorted(pairs, key=lambda x: x[1], reverse=True)`: Python's stable sort
by count, descending.  This also models `Counter.most_common(n)` up to the
final `take n`, since `heapq.nlargest(n, ...)` is documented as equivalent
to `sorted(..., reverse=True)[:n]` and `sorted` is stable, ties being
resolved by first-encounter (insertion) order of the counter. -/
def pySortedByCountDesc {α : Type} (l : List (α × ℕ)) : List (α × ℕ) :=
  ((withIdx 0 l).insertionSort rankRel).map Prod.snd

/-- `Counter(ws).most_common(n)`. -/
def mostCommon (ws : List (List Char)) (n : ℕ) : List (List Char × ℕ) :=
  (pySortedByCountDesc (tokenCounter ws)).take n

/-- `RepresentationExtractor._extract_keywords`: `[]` when keyword
extraction is disabled, otherwise the top `keyword_count` filtered tokens by
frequency. -/
def extractKeywordsFn (e : RepresentationExtractor) (text : String)
    (excludeWords : List String) : List String :=
  if e.extract_keywords then
    (mostCommon (filteredTokens text excludeWords) e.keyword_count).map
      fun p => String.mk p.1
  else []

/-! ## Comparative analysis (`src/analysis/comparative_analysis.py`) -/

/-- A row of `documents_df`.  The parquet table also carries `title`,
`author`, `published_at`, `raw_text`, `url` and ingestion metadata, but the
comparative analyzer reads only `id` and `source_id`. -/
structure DocumentRow where
  id : String
  source_id : String

/-- The `ComparisonResult` dataclass (architecture section 3.5), generic in
the shape of the metric-specific `values` mapping.  The auxiliary
`metadata` dict (reporting counts only, never read back) is omitted. -/
structure ComparisonResult (α : Type) where
  concept_id : String
  sources : List String
  metric_type : String
  values : α

/-- Lookup in `rep_lookup = {rep.concept_instance_id: rep for rep in
representations}`: later entries overwrite earlier ones, so lookup returns
the last representation carrying the key.  Note the analyzer queries this
dictionary with `instance.text_segment_id`. -/
def dictGetRep {V : Type} (reps : List (Representation V)) (k : String) :
    Option (Representation V) :=
  reps.reverse.find? fun r => r.concept_instance_id == k

/-- `doc_id = instance.metadata.get('document_id')` followed by the guard
`if not doc_id: continue`: both a missing key (`None`) and an empty string
are falsy and excluded. -/
def metadataDocId (inst : ConceptInstance) : Option String :=
  match inst.metadata.document_id with
  | none => none
  | some d => if d = "" then none else some d

/-- `doc = documents_df[documents_df['id'] == doc_id]`, the `doc.empty`
guard, and `doc.iloc[0]`: the first row whose `id` matches, if any. -/
def lookupDocument (docs : List DocumentRow) (docId : String) : Option DocumentRow :=
  docs.find? fun row => row.id == docId

/-- The source an instance is attributed to by all three metric
computations: the `document_id` read from the instance's metadata, resolved
against the document table.  `none` means the instance is silently skipped
(`continue`). -/
def sourceOfInstance (docs : List DocumentRow) (inst : ConceptInstance) :
    Option String :=
  match metadataDocId inst with
  | none => none
  | some d => (lookupDocument docs d).map fun row => row.source_id

/-- `defaultdict(list)` update `groups[k].append(v)`: append to the entry
of `k`, creating it at the end on first use (dict insertion order). -/
def addToGroup {β : Type} (groups : List (String × List β)) (k : String) (v : β) :
    List (String × List β) :=
  match groups with
  | [] => [(k, [v])]
  | (k1, vs) :: rest =>
    if k1 = k then (k1, vs ++ [v]) :: rest
    else (k1, vs) :: addToGroup rest k v

/-- The loop body of `ComparativeAnalyzer._get_source_embeddings`: skip the
instance when it has no representation, the representation has no embedding,
or the document join fails; otherwise append the embedding to its source's
group. -/
def sourceEmbeddingsStep {V : Type} (reps : List (Representation V))
    (docs : List DocumentRow) (groups : List (String × List V))
    (inst : ConceptInstance) : List (String × List V) :=
  match dictGetRep reps inst.text_segment_id with
  | none => groups
  | some rep =>
    match rep.embedding with
    | none => groups
    | some emb =>
      match sourceOfInstance docs inst with
      | none => groups
      | some src => addToGroup groups src emb

/-- `ComparativeAnalyzer._get_source_embeddings`: group the embeddings of
the instances' representations by attributed source. -/
def sourceEmbeddings {V : Type} (reps : List (Representation V))
    (insts : List ConceptInstance) (docs : List DocumentRow) :
    List (String × List V) :=
  insts.foldl (sourceEmbeddingsStep reps docs) []

/-- All ordered pairs `(l[i], l[j])` with `i < j`, in the order produced by
`for i, x in enumerate(l): for y in l[i+1:]`. -/
def pairsOf {α : Type} : List α → List (α × α)
  | [] => []
  | x :: xs => (xs.map fun y => (x, y)) ++ pairsOf xs

/-- `np.mean(embeddings, axis=0)`. -/
noncomputable def avgEmbedding (vs : List V) : V :=
  ((vs.length : ℝ)⁻¹) • vs.sum

/-- `ComparativeAnalyzer.calculate_source_similarity`: `None` with fewer
than two grouped sources; otherwise the pairwise cosine similarities of the
per-source average embeddings.  The group keys are pairwise distinct (an
`addToGroup` invariant), so pairing the entries of the filtered average
list coincides with the source's iteration over `sources[i+1:]` followed by
dictionary lookups. -/
noncomputable def calculateSourceSimilarity (reps : List (Representation V))
    (insts : List ConceptInstance) (docs : List DocumentRow)
    (concept_id : String) : Option (ComparisonResult (List (String × ℝ))) :=
  let se := sourceEmbeddings reps insts docs
  if se.length < 2 then none
  else
    let avgs := (se.filter fun p => !p.2.isEmpty).map fun p => (p.1, avgEmbedding p.2)
    some
      { concept_id := concept_id
        sources := avgs.map Prod.fst
        metric_type := "source_similarity"
        values :=
          (pairsOf avgs).map fun q =>
            (q.1.1 ++ " vs " ++ q.2.1, cosineSimilarity q.1.2 q.2.2) }

/-- `source_keywords[source_id][keyword] += 1` on the inner counting dict. -/
def bumpKeyword : List (String × ℕ) → String → List (String × ℕ)
  | [], kw => [(kw, 1)]
  | (k, n) :: rest, kw =>
    if k = kw then (k, n + 1) :: rest
    else (k, n) :: bumpKeyword rest kw

/-- `source_keywords[source_id][keyword] += 1` on the outer
`defaultdict(lambda: defaultdict(int))`. -/
def addKeyword (groups : List (String × List (String × ℕ))) (src kw : String) :
    List (String × List (String × ℕ)) :=
  match groups with
  | [] => [(src, bumpKeyword [] kw)]
  | (s, m) :: rest =>
    if s = src then (s, bumpKeyword m kw) :: rest
    else (s, m) :: addKeyword rest src kw

/-- The loop body of the keyword-counting loop of
`analyze_lexical_patterns`: instances with no representation, no keywords,
or a failing document join are skipped. -/
def lexicalStep {V : Type} (reps : List (Representation V))
    (docs : List DocumentRow) (groups : List (String × List (String × ℕ)))
    (inst : ConceptInstance) : List (String × List (String × ℕ)) :=
  match dictGetRep reps inst.text_segment_id with
  | none => groups
  | some rep =>
    if rep.keywords.isEmpty then groups
    else
      match sourceOfInstance docs inst with
      | none => groups
      | some src => rep.keywords.foldl (fun g kw => addKeyword g src kw) groups

/-- The keyword-counting loop of `analyze_lexical_patterns`. -/
def sourceKeywordCounts {V : Type} (reps : List (Representation V))
    (insts : List ConceptInstance) (docs : List DocumentRow) :
    List (String × List (String × ℕ)) :=
  insts.foldl (lexicalStep reps docs) []

/-- A per-source entry of the `lexical_patterns` values. -/
structure LexicalEntry where
  top_keywords : List String
  keyword_counts : List (String × ℕ)

/-- `ComparativeAnalyzer.analyze_lexical_patterns`: per source, the ten
most frequent extracted keywords (stable descending sort, hard-coded
`[:10]`). -/
def analyzeLexicalPatterns {V : Type} (reps : List (Representation V))
    (insts : List ConceptInstance) (docs : List DocumentRow)
    (concept_id : String) : ComparisonResult (List (String × LexicalEntry)) :=
  let sk := sourceKeywordCounts reps insts docs
  { concept_id := concept_id
    sources := sk.map Prod.fst
    metric_type := "lexical_patterns"
    values :=
      sk.map fun p =>
        let top := (pySortedByCountDesc p.2).take 10
        (p.1, { top_keywords := top.map Prod.fst, keyword_counts := top }) }

/-- The accumulating per-source record of `analyze_coverage`
(`{'documents': set(), 'segments': 0, 'avg_confidence': []}`). -/
structure CoverageStats where
  documents : List String
  segments : ℕ
  confidences : List ℝ

/-- One `analyze_coverage` update of the per-source statistics. -/
def bumpCoverage : List (String × CoverageStats) → String → String → ℝ →
    List (String × CoverageStats)
  | [], src, docId, conf =>
    [(src, { documents := [docId], segments := 1, confidences := [conf] })]
  | (s, st) :: rest, src, docId, conf =>
    if s = src then
      (s, { documents := if docId ∈ st.documents then st.documents else st.documents ++ [docId]
            segments := st.segments + 1
            confidences := st.confidences ++ [conf] }) :: rest
    else (s, st) :: bumpCoverage rest src docId conf

/-- The loop body of the per-source statistics loop of `analyze_coverage`:
skip the instance when its metadata carries no (non-empty) document id or
the id matches no document row. -/
def coverageStep (docs : List DocumentRow) (groups : List (String × CoverageStats))
    (inst : ConceptInstance) : List (String × CoverageStats) :=
  match metadataDocId inst with
  | none => groups
  | some d =>
    match lookupDocument docs d with
    | none => groups
    | some row => bumpCoverage groups row.source_id d inst.confidence

/-- The per-source statistics loop of `analyze_coverage`. -/
def coverageStatsOf (insts : List ConceptInstance) (docs : List DocumentRow) :
    List (String × CoverageStats) :=
  insts.foldl (coverageStep docs) []

/-- A per-source entry of the `coverage` values. -/
structure CoverageEntry where
  document_count : ℕ
  segment_count : ℕ
  avg_confidence : ℝ
  min_confidence : ℝ
  max_confidence : ℝ

/-- `np.mean` of a Python list of floats. -/
noncomputable def pyMean (l : List ℝ) : ℝ := l.sum / l.length

/-- Python `min` of a nonempty list (`0` never reached: the source guards
with `if stats['avg_confidence'] else 0.0`). -/
noncomputable def pyMinList : List ℝ → ℝ
  | [] => 0
  | x :: xs => xs.foldl min x

/-- Python `max` of a nonempty list, same guard as `pyMinList`. -/
noncomputable def pyMaxList : List ℝ → ℝ
  | [] => 0
  | x :: xs => xs.foldl max x

/-- `ComparativeAnalyzer.analyze_coverage`. -/
noncomputable def analyzeCoverage (insts : List ConceptInstance)
    (docs : List DocumentRow) (concept_id : String) :
    ComparisonResult (List (String × CoverageEntry)) :=
  let stats := coverageStatsOf insts docs
  { concept_id := concept_id
    sources := stats.map Prod.fst
    metric_type := "coverage"
    values :=
      stats.map fun p =>
        (p.1,
          { document_count := p.2.documents.length
            segment_count := p.2.segments
            avg_confidence := if p.2.confidences.isEmpty then 0 else pyMean p.2.confidences
            min_confidence := if p.2.confidences.isEmpty then 0 else pyMinList p.2.confidences
            max_confidence := if p.2.confidences.isEmpty then 0 else pyMaxList p.2.confidences }) }

/-- The join claimed by the spec for all three metrics, written from the
spec's words for comparison with the implementation:
`instance.text_segment_id → segment → segment.document_id →
document.source_id`. -/
def specSourceOfInstance (segments : List TextSegment) (docs : List DocumentRow)
    (inst : ConceptInstance) : Option String :=
  match segments.find? (fun s => s.id == inst.text_segment_id) with
  | none => none
  | some seg => (lookupDocument docs seg.document_id).map fun row => row.source_id

/-! ## Concrete fixtures and evaluation lemmas -/

/-- A one-seed-term concept used as a concrete fixture. -/
def exampleConcept : Concept :=
  { id := "c1", name := "Example", description := "", inclusion_criteria := [],
    exclusion_criteria := [], seed_terms := ["inequality"], metadata := [] }

/-- A concrete segment whose text is the single token of `exampleConcept`. -/
def exampleSegment : TextSegment :=
  { id := "seg1", document_id := "doc1", text := "inequality", position := 0,
    metadata := [] }

lemma kwCounts_exampleConcept : kwCounts "inequality" exampleConcept = (1, 0) := by
  decide

lemma keywordMatchScore_exampleConcept :
    keywordMatchScore "inequality" exampleConcept = 0.4 := by
  simp only [keywordMatchScore, kwCounts_exampleConcept]
  norm_num [exampleConcept]

lemma keywordScoreR_exampleConcept :
    keywordScoreR "inequality" exampleConcept = 0.4 := by
  rw [keywordScoreR, keywordMatchScore_exampleConcept]
  norm_num

lemma combinedScore_of_keyword_only {V : Type} [NormedAddCommGroup V]
    [InnerProductSpace ℝ V] (a : ConceptAssigner V) (h : a.useEmbeddings = false)
    (text : String) (c : Concept) :
    combinedScore a text c = keywordScoreR text c := by
  simp [combinedScore, h]

lemma assignConcept_of_keyword_only {V : Type} [NormedAddCommGroup V]
    [InnerProductSpace ℝ V] (a : ConceptAssigner V) (h : a.useEmbeddings = false)
    (seg : TextSegment) (c : Concept) :
    assignConcept a seg c =
      if keywordScoreR seg.text c < a.minConfidence then none
      else some
        { concept_id := c.id
          text_segment_id := seg.id
          confidence := keywordScoreR seg.text c
          assignment_method := "keyword"
          metadata :=
            { keyword_score := some (keywordScoreR seg.text c)
              embedding_score := none
              text_length := some seg.text.data.length
              text_preview := some (textPreviewOf seg.text)
              document_id := none } } := by
  simp [assignConcept, checkExclusionCriteria, combinedScore, h, assignmentMethodOf]

/-! ## Claim theorems -/

/-- C2: for every concept whose `seed_terms` are exactly
`["income inequality", "wealth gap", "inequality"]`, the keyword match score
of the text `"The income inequality has grown, and the wealth gap is
widening."` is exactly 0.75: three phrase-equivalent matches give base score
0.65, and the 0.1 boost applies because the match ratio 3/3 exceeds 0.1. -/
theorem keyword_score_example_is_three_quarters (c : Concept)
    (h : c.seed_terms = ["income inequality", "wealth gap", "inequality"]) :
    keywordMatchScore
      "The income inequality has grown, and the wealth gap is widening." c
      = 0.75 := by
  have hk : kwCounts
      "The income inequality has grown, and the wealth gap is widening." c
      = (3, 0) := by
    simp only [kwCounts, h]
    decide
  have hl : c.seed_terms.length = 3 := by rw [h]; rfl
  simp only [keywordMatchScore, hk, hl]
  norm_num

/-- Witness for C2 at a concrete concept carrying exactly those seed terms. -/
theorem keyword_score_example_is_three_quarters_witness :
    keywordMatchScore
      "The income inequality has grown, and the wealth gap is widening."
      { id := "income_wealth_inequality", name := "Income and Wealth Inequality",
        description := "", inclusion_criteria := [], exclusion_criteria := [],
        seed_terms := ["income inequality", "wealth gap", "inequality"],
        metadata := [] }
      = 0.75 :=
  keyword_score_example_is_three_quarters _ rfl

/-- C3 counterexample: the `ConceptAssigner` constructor's default
`min_confidence` is 0.5, not 0.15.  With an assigner built from the
constructor defaults (in a keyword-only environment), a segment whose
combined score is 0.4 — above the claimed default threshold 0.15 — is
rejected. -/
theorem default_min_confidence_refuted :
    defaultMinConfidence = 0.5 ∧ defaultMinConfidence ≠ 0.15 ∧
    combinedScore
      (mkConceptAssigner defaultKeywordWeight defaultEmbeddingWeight
        defaultMinConfidence true false (fun _ => (0 : ℝ)))
      exampleSegment.text exampleConcept = 0.4 ∧
    (0.15 : ℝ) ≤ 0.4 ∧
    assignConcept
      (mkConceptAssigner defaultKeywordWeight defaultEmbeddingWeight
        defaultMinConfidence true false (fun _ => (0 : ℝ)))
      exampleSegment exampleConcept = none := by
  refine ⟨rfl, by norm_num [defaultMinConfidence], ?_, by norm_num, ?_⟩
  · rw [combinedScore_of_keyword_only _ rfl]
    show keywordScoreR "inequality" exampleConcept = 0.4
    exact keywordScoreR_exampleConcept
  · rw [assignConcept_of_keyword_only _ rfl, if_pos]
    show keywordScoreR "inequality" exampleConcept
      < (mkConceptAssigner (V := ℝ) defaultKeywordWeight defaultEmbeddingWeight
          defaultMinConfidence true false (fun _ => (0 : ℝ))).minConfidence
    rw [keywordScoreR_exampleConcept]
    show (0.4 : ℝ) < defaultMinConfidence
    norm_num [defaultMinConfidence]

/-- C3 (amended): `assign_concept` returns nothing exactly when the combined
score is strictly below `min_confidence`, and otherwise emits an instance
whose confidence equals the combined score; the `ConceptAssigner`
constructor's default `min_confidence` is 0.5 (0.15 is the default of the
pipeline helpers `assign_concepts_to_segments` / `run_concept_assignment`,
not of the class constructor). -/
theorem assign_threshold_and_default {V : Type} [NormedAddCommGroup V]
    [InnerProductSpace ℝ V] (a : ConceptAssigner V) (seg : TextSegment)
    (c : Concept) :
    (assignConcept a seg c = none
      ↔ combinedScore a seg.text c < a.minConfidence) ∧
    (∀ inst, assignConcept a seg c = some inst
      → inst.confidence = combinedScore a seg.text c) ∧
    defaultMinConfidence = 0.5 := by
  by_cases hc : combinedScore a seg.text c < a.minConfidence
  · refine ⟨by simp [assignConcept, checkExclusionCriteria, hc], ?_, rfl⟩
    intro inst h
    simp [assignConcept, checkExclusionCriteria, hc] at h
  · refine ⟨by simp [assignConcept, checkExclusionCriteria, hc], ?_, rfl⟩
    intro inst h
    simp only [assignConcept, checkExclusionCriteria, if_false, Bool.false_eq_true,
      if_neg hc, Option.some.injEq] at h
    rw [← h]

/-- Witness for C3 (amended): under the constructor-default threshold 0.5 a
combined score of 0.4 is rejected, exercising the none-direction of the
threshold equivalence. -/
theorem assign_threshold_and_default_witness :
    assignConcept
      (mkConceptAssigner defaultKeywordWeight defaultEmbeddingWeight
        defaultMinConfidence true false (fun _ => (0 : ℝ)))
      exampleSegment exampleConcept = none :=
  (assign_threshold_and_default _ exampleSegment exampleConcept).1.mpr (by
    rw [combinedScore_of_keyword_only _ rfl]
    show keywordScoreR "inequality" exampleConcept
      < (mkConceptAssigner (V := ℝ) defaultKeywordWeight defaultEmbeddingWeight
          defaultMinConfidence true false (fun _ => (0 : ℝ))).minConfidence
    rw [keywordScoreR_exampleConcept]
    show (0.4 : ℝ) < defaultMinConfidence
    norm_num [defaultMinConfidence])

lemma resolveConcepts_error_of_mem (ids : List String) (cid : String)
    (hmem : cid ∈ ids) (e : String)
    (herr : getConceptById cid = Except.error e) :
    ∃ msg, resolveConcepts ids = Except.error msg := by
  induction ids with
  | nil => cases hmem
  | cons hd tl ih =>
    rcases List.mem_cons.mp hmem with h | h
    · subst h
      exact ⟨e, by simp [resolveConcepts, herr]⟩
    · cases hhd : getConceptById hd with
      | error e2 => exact ⟨e2, by simp [resolveConcepts, hhd]⟩
      | ok c =>
        obtain ⟨msg, hmsg⟩ := ih h
        exact ⟨msg, by simp [resolveConcepts, hhd, hmsg]⟩

/-- C8: a batch assignment call whose concept id list contains an id that is
not a key of the `CONCEPTS` registry raises a configuration error
(`ValueError`, modelled as `Except.error`) before producing any
`ConceptInstance`: the whole batch fails with no partial output. -/
theorem unknown_concept_fails_batch {V : Type} [NormedAddCommGroup V]
    [InnerProductSpace ℝ V] (a : ConceptAssigner V) (segs : List TextSegment)
    (ids : List String) (cid : String) (hmem : cid ∈ ids)
    (hunk : CONCEPTS.find? (fun p => p.1 == cid) = none) :
    ∃ msg, assignAllConcepts a segs ids = Except.error msg := by
  have herr : getConceptById cid
      = Except.error ("Concept '" ++ cid ++ "' not found.") := by
    simp [getConceptById, hunk]
  obtain ⟨msg, hmsg⟩ := resolveConcepts_error_of_mem ids cid hmem _ herr
  exact ⟨msg, by simp [assignAllConcepts, hmsg]⟩

/-- Witness for C8: requesting the unknown id "not_a_concept" makes the
whole batch call fail. -/
theorem unknown_concept_fails_batch_witness :
    (assignAllConcepts
      (mkConceptAssigner defaultKeywordWeight defaultEmbeddingWeight
        defaultMinConfidence true false (fun _ => (0 : ℝ)))
      [] ["not_a_concept"]).isOk = false := by
  obtain ⟨msg, hmsg⟩ := unknown_concept_fails_batch
    (mkConceptAssigner defaultKeywordWeight defaultEmbeddingWeight
      defaultMinConfidence true false (fun _ => (0 : ℝ)))
    [] ["not_a_concept"] "not_a_concept" (by simp) (by rfl)
  rw [hmsg]
  rfl

/-- C9: with `use_embeddings=False` at construction, every emitted instance
has `assignment_method = 'keyword'` (never `'hybrid'`), its confidence is
the bare keyword score, and `metadata['embedding_score']` is `None`. -/
theorem keyword_only_mode {V : Type} [NormedAddCommGroup V]
    [InnerProductSpace ℝ V] (kw ew mc : ℝ) (avail : Bool) (enc : String → V)
    (seg : TextSegment) (c : Concept) (inst : ConceptInstance)
    (h : assignConcept (mkConceptAssigner kw ew mc false avail enc) seg c
      = some inst) :
    inst.assignment_method = "keyword" ∧ inst.assignment_method ≠ "hybrid" ∧
    inst.confidence = keywordScoreR seg.text c ∧
    inst.metadata.embedding_score = none := by
  rw [assignConcept_of_keyword_only _ rfl] at h
  by_cases hc : keywordScoreR seg.text c
      < (mkConceptAssigner kw ew mc false avail enc).minConfidence
  · rw [if_pos hc] at h
    cases h
  · rw [if_neg hc] at h
    injection h with h2
    rw [← h2]
    exact ⟨rfl, (by decide : ("keyword" : String) ≠ "hybrid"), rfl, rfl⟩

/-- The instance `assign_concept` emits for the example fixture in
keyword-only mode with threshold 0.1. -/
noncomputable def exampleKeywordInstance : ConceptInstance :=
  { concept_id := "c1"
    text_segment_id := "seg1"
    confidence := keywordScoreR "inequality" exampleConcept
    assignment_method := "keyword"
    metadata :=
      { keyword_score := some (keywordScoreR "inequality" exampleConcept)
        embedding_score := none
        text_length := some 10
        text_preview := some "inequality"
        document_id := none } }

lemma assignConcept_example_eval (mc : ℝ) (hmc : ¬((0.4 : ℝ) < mc)) :
    assignConcept
      (mkConceptAssigner defaultKeywordWeight defaultEmbeddingWeight mc false
        true (fun _ => (0 : ℝ)))
      exampleSegment exampleConcept = some exampleKeywordInstance := by
  rw [assignConcept_of_keyword_only _ rfl, if_neg]
  · simp only [exampleKeywordInstance, exampleSegment, exampleConcept,
      textPreviewOf, Option.some.injEq]
    refine congrArg₂ _ rfl ?_
    norm_num
  · show ¬(keywordScoreR "inequality" exampleConcept
      < (mkConceptAssigner (V := ℝ) defaultKeywordWeight defaultEmbeddingWeight
          mc false true (fun _ => (0 : ℝ))).minConfidence)
    rw [keywordScoreR_exampleConcept]
    exact hmc

/-- Witness for C9 at the concrete keyword-only assignment above. -/
theorem keyword_only_mode_witness :
    exampleKeywordInstance.assignment_method = "keyword" ∧
    exampleKeywordInstance.assignment_method ≠ "hybrid" ∧
    exampleKeywordInstance.confidence
      = keywordScoreR exampleSegment.text exampleConcept ∧
    exampleKeywordInstance.metadata.embedding_score = none :=
  keyword_only_mode defaultKeywordWeight defaultEmbeddingWeight 0.1 true
    (fun _ => (0 : ℝ)) exampleSegment exampleConcept exampleKeywordInstance
    (assignConcept_example_eval 0.1 (by norm_num))

/-- Replace an instance's `concept_id`, leaving every other field intact. -/
def withConceptId (x : String) (inst : ConceptInstance) : ConceptInstance :=
  { inst with concept_id := x }

lemma metadataDocId_withConceptId (x : String) (i : ConceptInstance) :
    metadataDocId (withConceptId x i) = metadataDocId i := rfl

lemma confidence_withConceptId (x : String) (i : ConceptInstance) :
    (withConceptId x i).confidence = i.confidence := rfl

lemma text_segment_id_withConceptId (x : String) (i : ConceptInstance) :
    (withConceptId x i).text_segment_id = i.text_segment_id := rfl

lemma sourceOfInstance_withConceptId (docs : List DocumentRow) (x : String)
    (i : ConceptInstance) :
    sourceOfInstance docs (withConceptId x i) = sourceOfInstance docs i := rfl

lemma coverageStep_withConceptId (docs : List DocumentRow)
    (g : List (String × CoverageStats)) (x : String) (i : ConceptInstance) :
    coverageStep docs g (withConceptId x i) = coverageStep docs g i := rfl

lemma lexicalStep_withConceptId {V : Type} (reps : List (Representation V))
    (docs : List DocumentRow) (g : List (String × List (String × ℕ)))
    (x : String) (i : ConceptInstance) :
    lexicalStep reps docs g (withConceptId x i) = lexicalStep reps docs g i := rfl

lemma sourceEmbeddingsStep_withConceptId {V : Type}
    (reps : List (Representation V)) (docs : List DocumentRow)
    (g : List (String × List V)) (x : String) (i : ConceptInstance) :
    sourceEmbeddingsStep reps docs g (withConceptId x i)
      = sourceEmbeddingsStep reps docs g i := rfl

/-- C10: in all three metric computations the `concept_id` argument only
labels the returned result: rewriting the `concept_id` field of every input
instance changes nothing (the aggregation never reads it), and the result's
`concept_id` is the argument.  Callers must pre-filter instances to one
concept or the per-source statistics mix concepts. -/
theorem concept_id_is_label_only {V : Type} [NormedAddCommGroup V]
    [InnerProductSpace ℝ V] (reps : List (Representation V))
    (insts : List ConceptInstance) (docs : List DocumentRow) (cid x : String) :
    analyzeCoverage (insts.map (withConceptId x)) docs cid
      = analyzeCoverage insts docs cid ∧
    analyzeLexicalPatterns reps (insts.map (withConceptId x)) docs cid
      = analyzeLexicalPatterns reps insts docs cid ∧
    calculateSourceSimilarity reps (insts.map (withConceptId x)) docs cid
      = calculateSourceSimilarity reps insts docs cid ∧
    (analyzeCoverage insts docs cid).concept_id = cid ∧
    (analyzeLexicalPatterns reps insts docs cid).concept_id = cid ∧
    (∀ r, calculateSourceSimilarity reps insts docs cid = some r
      → r.concept_id = cid) := by
  have hcov : coverageStatsOf (insts.map (withConceptId x)) docs
      = coverageStatsOf insts docs := by
    unfold coverageStatsOf
    rw [List.foldl_map]
    simp only [coverageStep_withConceptId]
  have hsk : sourceKeywordCounts reps (insts.map (withConceptId x)) docs
      = sourceKeywordCounts reps insts docs := by
    unfold sourceKeywordCounts
    rw [List.foldl_map]
    simp only [lexicalStep_withConceptId]
  have hse : sourceEmbeddings reps (insts.map (withConceptId x)) docs
      = sourceEmbeddings reps insts docs := by
    unfold sourceEmbeddings
    rw [List.foldl_map]
    simp only [sourceEmbeddingsStep_withConceptId]
  refine ⟨?_, ?_, ?_, rfl, rfl, ?_⟩
  · unfold analyzeCoverage
    rw [hcov]
  · unfold analyzeLexicalPatterns
    rw [hsk]
  · unfold calculateSourceSimilarity
    rw [hse]
  · intro r hr
    by_cases h2 : (sourceEmbeddings reps insts docs).length < 2
    · simp only [calculateSourceSimilarity, if_pos h2] at hr
      exact Option.noConfusion hr
    · simp only [calculateSourceSimilarity, if_neg h2, Option.some.injEq] at hr
      rw [← hr]

/-- Witness for C10 at a concrete one-instance input. -/
theorem concept_id_is_label_only_witness :
    analyzeCoverage
        ([{ concept_id := "other", text_segment_id := "t1", confidence := 1,
            assignment_method := "keyword",
            metadata :=
              { keyword_score := none, embedding_score := none,
                text_length := none, text_preview := none,
                document_id := some "d1" } }].map (withConceptId "changed"))
        [{ id := "d1", source_id := "s1" }] "income_wealth_inequality"
      = analyzeCoverage
        [{ concept_id := "other", text_segment_id := "t1", confidence := 1,
           assignment_method := "keyword",
           metadata :=
             { keyword_score := none, embedding_score := none,
               text_length := none, text_preview := none,
               document_id := some "d1" } }]
        [{ id := "d1", source_id := "s1" }] "income_wealth_inequality" ∧
    (analyzeCoverage
        [{ concept_id := "other", text_segment_id := "t1", confidence := 1,
           assignment_method := "keyword",
           metadata :=
             { keyword_score := none, embedding_score := none,
               text_length := none, text_preview := none,
               document_id := some "d1" } }]
        [{ id := "d1", source_id := "s1" }]
        "income_wealth_inequality").concept_id = "income_wealth_inequality" :=
  ⟨(concept_id_is_label_only ([] : List (Representation ℝ)) _ _ _ _).1,
   (concept_id_is_label_only ([] : List (Representation ℝ)) _ _
      "income_wealth_inequality" "changed").2.2.2.1⟩

lemma embeddingSimilarityScore_congr {V : Type} [NormedAddCommGroup V]
    [InnerProductSpace ℝ V] (a1 a2 : ConceptAssigner V)
    (hue : a1.useEmbeddings = a2.useEmbeddings) (henc : a1.encode = a2.encode)
    (text : String) (c : Concept) :
    embeddingSimilarityScore a1 text c = embeddingSimilarityScore a2 text c := by
  unfold embeddingSimilarityScore
  rw [hue, henc]

lemma combinedScore_congr {V : Type} [NormedAddCommGroup V]
    [InnerProductSpace ℝ V] (a1 a2 : ConceptAssigner V)
    (hkw : a1.keywordWeight = a2.keywordWeight)
    (hew : a1.embeddingWeight = a2.embeddingWeight)
    (hue : a1.useEmbeddings = a2.useEmbeddings) (henc : a1.encode = a2.encode)
    (text : String) (c : Concept) :
    combinedScore a1 text c = combinedScore a2 text c := by
  unfold combinedScore
  rw [hkw, hew, hue, embeddingSimilarityScore_congr a1 a2 hue henc]

lemma assignConcept_mono {V : Type} [NormedAddCommGroup V]
    [InnerProductSpace ℝ V] (a1 a2 : ConceptAssigner V)
    (hkw : a1.keywordWeight = a2.keywordWeight)
    (hew : a1.embeddingWeight = a2.embeddingWeight)
    (hue : a1.useEmbeddings = a2.useEmbeddings) (henc : a1.encode = a2.encode)
    (hle : a1.minConfidence ≤ a2.minConfidence) (seg : TextSegment)
    (c : Concept) (inst : ConceptInstance)
    (h : assignConcept a2 seg c = some inst) :
    assignConcept a1 seg c = some inst := by
  have hcs : combinedScore a1 seg.text c = combinedScore a2 seg.text c :=
    combinedScore_congr a1 a2 hkw hew hue henc seg.text c
  unfold assignConcept at h
  rw [if_neg (by simp [checkExclusionCriteria])] at h
  by_cases h2 : combinedScore a2 seg.text c < a2.minConfidence
  · rw [if_pos h2] at h
    cases h
  · rw [if_neg h2] at h
    unfold assignConcept
    rw [if_neg (by simp [checkExclusionCriteria]),
      if_neg (show ¬(combinedScore a1 seg.text c < a1.minConfidence) from by
        rw [hcs]
        intro hlt
        exact h2 (lt_of_lt_of_le hlt hle))]
    rw [← h]
    simp only [hcs, hue, embeddingSimilarityScore_congr a1 a2 hue henc]

/-- C4: for a fixed segment list, concept list, weights and embedding
behavior, and thresholds t1 ≤ t2, every instance emitted by the batch
assignment at threshold t2 is also emitted at threshold t1: raising
`min_confidence` can only shrink or preserve the assignment set. -/
theorem threshold_monotonicity {V : Type} [NormedAddCommGroup V]
    [InnerProductSpace ℝ V] (a1 a2 : ConceptAssigner V)
    (segs : List TextSegment) (cs : List Concept)
    (hkw : a1.keywordWeight = a2.keywordWeight)
    (hew : a1.embeddingWeight = a2.embeddingWeight)
    (hue : a1.useEmbeddings = a2.useEmbeddings) (henc : a1.encode = a2.encode)
    (hle : a1.minConfidence ≤ a2.minConfidence) (inst : ConceptInstance)
    (hmem : inst ∈ assignAllConceptsCore a2 segs cs) :
    inst ∈ assignAllConceptsCore a1 segs cs := by
  unfold assignAllConceptsCore at hmem ⊢
  rw [List.mem_flatMap] at hmem ⊢
  obtain ⟨seg, hseg, hin⟩ := hmem
  rw [List.mem_filterMap] at hin
  obtain ⟨c, hc, hac⟩ := hin
  exact ⟨seg, hseg, List.mem_filterMap.mpr
    ⟨c, hc, assignConcept_mono a1 a2 hkw hew hue henc hle seg c inst hac⟩⟩

/-- Witness for C4: the instance emitted at threshold 0.3 is also emitted at
threshold 0.1. -/
theorem threshold_monotonicity_witness :
    exampleKeywordInstance ∈ assignAllConceptsCore
      (mkConceptAssigner defaultKeywordWeight defaultEmbeddingWeight 0.1 false
        true (fun _ => (0 : ℝ)))
      [exampleSegment] [exampleConcept] :=
  threshold_monotonicity
    (mkConceptAssigner defaultKeywordWeight defaultEmbeddingWeight 0.1 false
      true (fun _ => (0 : ℝ)))
    (mkConceptAssigner defaultKeywordWeight defaultEmbeddingWeight 0.3 false
      true (fun _ => (0 : ℝ)))
    [exampleSegment] [exampleConcept] rfl rfl rfl rfl
    (by norm_num [mkConceptAssigner])
    exampleKeywordInstance
    (by simp [assignAllConceptsCore, assignConcept_example_eval 0.3 (by norm_num)])

lemma keywordMatchScore_nonneg (t : String) (c : Concept) :
    0 ≤ keywordMatchScore t c := by
  unfold keywordMatchScore
  lift_lets
  extract_lets totalTerms pw phraseMatches wordMatches matchCount base base2
  have hBn : (0 : ℚ) ≤ base := by
    unfold base
    split_ifs with h1 h2 h3 h4 h5
    · norm_num
    · norm_num
    · norm_num
    · norm_num
    · have hmul : (0 : ℚ) ≤ (matchCount - 4) * 0.05 :=
        mul_nonneg (by linarith) (by norm_num)
      have hmin : (0 : ℚ) ≤ min 0.2 ((matchCount - 4) * 0.05) :=
        le_min (by norm_num) hmul
      linarith
    · norm_num
  have hB2 : (0 : ℚ) ≤ base2 := by
    unfold base2
    split
    · exact le_min (by norm_num) (by linarith)
    · exact hBn
  split
  · norm_num
  · split
    · norm_num
    · exact le_min (by norm_num) hB2

lemma keywordMatchScore_le_one (t : String) (c : Concept) :
    keywordMatchScore t c ≤ 1 := by
  unfold keywordMatchScore
  lift_lets
  extract_lets totalTerms pw phraseMatches wordMatches matchCount base base2
  split
  · norm_num
  · split
    · norm_num
    · exact min_le_left _ _

lemma embeddingSimilarityScore_nonneg {V : Type} [NormedAddCommGroup V]
    [InnerProductSpace ℝ V] (a : ConceptAssigner V) (t : String) (c : Concept) :
    0 ≤ embeddingSimilarityScore a t c := by
  unfold embeddingSimilarityScore
  split
  · exact le_max_left 0 _
  · exact le_refl 0

lemma embeddingSimilarityScore_le_one {V : Type} [NormedAddCommGroup V]
    [InnerProductSpace ℝ V] (a : ConceptAssigner V) (t : String) (c : Concept) :
    embeddingSimilarityScore a t c ≤ 1 := by
  unfold embeddingSimilarityScore
  split
  · refine max_le (by norm_num) ?_
    unfold cosineSimilarity
    exact (abs_le.mp (abs_real_inner_div_norm_mul_norm_le_one _ _)).2
  · norm_num

lemma assignConcept_confidence {V : Type} [NormedAddCommGroup V]
    [InnerProductSpace ℝ V] (a : ConceptAssigner V) (seg : TextSegment)
    (c : Concept) (inst : ConceptInstance)
    (h : assignConcept a seg c = some inst) :
    inst.confidence = combinedScore a seg.text c := by
  unfold assignConcept at h
  rw [if_neg (by simp [checkExclusionCriteria])] at h
  by_cases h2 : combinedScore a seg.text c < a.minConfidence
  · rw [if_pos h2] at h
    cases h
  · rw [if_neg h2] at h
    injection h with h3
    rw [← h3]

/-- C5: the keyword score and the embedding similarity score always lie in
`[0,1]` (the embedding score is a cosine similarity clamped from below at
0), and under the default weights `keyword_weight = 0.4`,
`embedding_weight = 0.6` the confidence of every emitted instance lies in
`[0,1]`. -/
theorem score_bounds {V : Type} [NormedAddCommGroup V]
    [InnerProductSpace ℝ V] (a : ConceptAssigner V) (seg : TextSegment)
    (text : String) (c : Concept) :
    (0 ≤ keywordMatchScore text c ∧ keywordMatchScore text c ≤ 1) ∧
    (0 ≤ embeddingSimilarityScore a text c
      ∧ embeddingSimilarityScore a text c ≤ 1) ∧
    (a.keywordWeight = defaultKeywordWeight
      → a.embeddingWeight = defaultEmbeddingWeight
      → ∀ inst, assignConcept a seg c = some inst
        → 0 ≤ inst.confidence ∧ inst.confidence ≤ 1) := by
  refine ⟨⟨keywordMatchScore_nonneg text c, keywordMatchScore_le_one text c⟩,
    ⟨embeddingSimilarityScore_nonneg a text c,
     embeddingSimilarityScore_le_one a text c⟩, ?_⟩
  intro hkw hew inst h
  have hk0 : (0 : ℝ) ≤ keywordScoreR seg.text c := by
    unfold keywordScoreR
    exact_mod_cast keywordMatchScore_nonneg seg.text c
  have hk1 : keywordScoreR seg.text c ≤ 1 := by
    unfold keywordScoreR
    exact_mod_cast keywordMatchScore_le_one seg.text c
  have he0 : (0 : ℝ) ≤ embeddingSimilarityScore a seg.text c :=
    embeddingSimilarityScore_nonneg a seg.text c
  have he1 : embeddingSimilarityScore a seg.text c ≤ 1 :=
    embeddingSimilarityScore_le_one a seg.text c
  rw [assignConcept_confidence a seg c inst h]
  unfold combinedScore
  rw [hkw, hew]
  unfold defaultKeywordWeight defaultEmbeddingWeight
  split
  · constructor
    · have := mul_nonneg (show (0:ℝ) ≤ 0.4 by norm_num) hk0
      have := mul_nonneg (show (0:ℝ) ≤ 0.6 by norm_num) he0
      linarith
    · nlinarith
  · exact ⟨hk0, hk1⟩

/-- Witness for C5: the bounds at a concrete emitted instance whose assigner
carries the default weights. -/
theorem score_bounds_witness :
    0 ≤ exampleKeywordInstance.confidence
      ∧ exampleKeywordInstance.confidence ≤ 1 :=
  (score_bounds
      (mkConceptAssigner defaultKeywordWeight defaultEmbeddingWeight 0.1 false
        true (fun _ => (0 : ℝ)))
      exampleSegment "inequality" exampleConcept).2.2 rfl rfl
    exampleKeywordInstance (assignConcept_example_eval 0.1 (by norm_num))

lemma addToGroup_keys {β : Type} (g : List (String × List β)) (k : String) (v : β) :
    (addToGroup g k v).map Prod.fst =
      if k ∈ g.map Prod.fst then g.map Prod.fst else g.map Prod.fst ++ [k] := by
  induction g with
  | nil => simp [addToGroup]
  | cons hd tl ih =>
    obtain ⟨k1, vs⟩ := hd
    by_cases hk : k1 = k
    · subst hk
      simp [addToGroup]
    · simp only [addToGroup, if_neg hk, List.map_cons, List.mem_cons, ih]
      have hne : ¬(k = k1) := fun h => hk h.symm
      by_cases hmem : k ∈ tl.map Prod.fst
      · simp [hmem, hne]
      · simp [hmem, hne]

lemma addToGroup_nonempty {β : Type} (g : List (String × List β)) (k : String)
    (v : β) (h : ∀ p ∈ g, p.2 ≠ []) : ∀ p ∈ addToGroup g k v, p.2 ≠ [] := by
  induction g with
  | nil =>
    intro p hp
    unfold addToGroup at hp
    have hp2 := List.mem_singleton.mp hp
    subst hp2
    simp
  | cons hd tl ih =>
    obtain ⟨k1, vs⟩ := hd
    intro p hp
    unfold addToGroup at hp
    by_cases hk : k1 = k
    · rw [if_pos hk] at hp
      rcases List.mem_cons.mp hp with hp2 | hp2
      · subst hp2
        simp
      · exact h p (List.mem_cons_of_mem _ hp2)
    · rw [if_neg hk] at hp
      rcases List.mem_cons.mp hp with hp2 | hp2
      · subst hp2
        exact h (k1, vs) (List.mem_cons_self _ _)
      · exact ih (fun q hq => h q (List.mem_cons_of_mem _ hq)) p hp2

lemma addToGroup_keys_nodup {β : Type} (g : List (String × List β)) (k : String)
    (v : β) (h : (g.map Prod.fst).Nodup) :
    ((addToGroup g k v).map Prod.fst).Nodup := by
  rw [addToGroup_keys]
  split_ifs with hmem
  · exact h
  · rw [List.nodup_append]
    exact ⟨h, List.nodup_singleton k, by simpa using hmem⟩

lemma sourceEmbeddingsStep_nonempty {V : Type} (reps : List (Representation V))
    (docs : List DocumentRow) (g : List (String × List V))
    (inst : ConceptInstance) (h : ∀ p ∈ g, p.2 ≠ []) :
    ∀ p ∈ sourceEmbeddingsStep reps docs g inst, p.2 ≠ [] := by
  intro p hp
  unfold sourceEmbeddingsStep at hp
  split at hp
  · exact h p hp
  · split at hp
    · exact h p hp
    · split at hp
      · exact h p hp
      · exact addToGroup_nonempty _ _ _ h p hp

lemma sourceEmbeddingsStep_keys_nodup {V : Type}
    (reps : List (Representation V)) (docs : List DocumentRow)
    (g : List (String × List V)) (inst : ConceptInstance)
    (h : (g.map Prod.fst).Nodup) :
    ((sourceEmbeddingsStep reps docs g inst).map Prod.fst).Nodup := by
  unfold sourceEmbeddingsStep
  split
  · exact h
  · split
    · exact h
    · split
      · exact h
      · exact addToGroup_keys_nodup _ _ _ h

lemma sourceEmbeddings_aux {V : Type} (reps : List (Representation V))
    (docs : List DocumentRow) (insts : List ConceptInstance) :
    ∀ g : List (String × List V),
      (∀ p ∈ g, p.2 ≠ []) → (g.map Prod.fst).Nodup →
      (∀ p ∈ insts.foldl (sourceEmbeddingsStep reps docs) g, p.2 ≠ []) ∧
      ((insts.foldl (sourceEmbeddingsStep reps docs) g).map Prod.fst).Nodup := by
  induction insts with
  | nil => exact fun g hg hn => ⟨hg, hn⟩
  | cons hd tl ih =>
    intro g hg hn
    rw [List.foldl_cons]
    exact ih _ (sourceEmbeddingsStep_nonempty reps docs g hd hg)
      (sourceEmbeddingsStep_keys_nodup reps docs g hd hn)

lemma sourceEmbeddings_nonempty {V : Type} (reps : List (Representation V))
    (insts : List ConceptInstance) (docs : List DocumentRow) :
    ∀ p ∈ sourceEmbeddings reps insts docs, p.2 ≠ [] :=
  (sourceEmbeddings_aux reps docs insts [] (by simp) (by simp)).1

lemma sourceEmbeddings_keys_nodup {V : Type} (reps : List (Representation V))
    (insts : List ConceptInstance) (docs : List DocumentRow) :
    ((sourceEmbeddings reps insts docs).map Prod.fst).Nodup :=
  (sourceEmbeddings_aux reps docs insts [] (by simp) (by simp)).2

lemma pairsOf_map {α β : Type} (f : α → β) (l : List α) :
    pairsOf (l.map f) = (pairsOf l).map fun p => (f p.1, f p.2) := by
  induction l with
  | nil => rfl
  | cons x xs ih =>
    simp only [List.map_cons, pairsOf, ih, List.map_append, List.map_map]
    rfl

lemma length_pairsOf {α : Type} (l : List α) :
    (pairsOf l).length = Nat.choose l.length 2 := by
  induction l with
  | nil => rfl
  | cons x xs ih =>
    simp only [pairsOf, List.length_append, List.length_map, ih,
      List.length_cons]
    rw [Nat.choose_succ_succ, Nat.choose_one_right]

/-- C7: `calculate_source_similarity` returns no result object when the
embeddings group into fewer than two sources; with at least two grouped
sources it returns a result listing the (pairwise distinct) sources and one
cosine-similarity value per unordered pair of sources. -/
theorem similarity_requires_two_sources {V : Type} [NormedAddCommGroup V]
    [InnerProductSpace ℝ V] (reps : List (Representation V))
    (insts : List ConceptInstance) (docs : List DocumentRow) (cid : String) :
    ((sourceEmbeddings reps insts docs).length < 2
      → calculateSourceSimilarity reps insts docs cid = none) ∧
    (2 ≤ (sourceEmbeddings reps insts docs).length
      → ∃ r, calculateSourceSimilarity reps insts docs cid = some r ∧
          r.sources = (sourceEmbeddings reps insts docs).map Prod.fst ∧
          r.sources.Nodup ∧ 2 ≤ r.sources.length ∧
          r.values.map Prod.fst
            = (pairsOf r.sources).map (fun p => p.1 ++ " vs " ++ p.2) ∧
          r.values.length = Nat.choose r.sources.length 2) := by
  constructor
  · intro h
    simp only [calculateSourceSimilarity]
    rw [if_pos h]
  · intro h
    have hfil : ((sourceEmbeddings reps insts docs).filter
        fun p => !p.2.isEmpty) = sourceEmbeddings reps insts docs := by
      rw [List.filter_eq_self]
      intro p hp
      simpa using sourceEmbeddings_nonempty reps insts docs p hp
    simp only [calculateSourceSimilarity]
    rw [if_neg (not_lt.mpr h)]
    refine ⟨_, rfl, ?_, ?_, ?_, ?_, ?_⟩
    · rw [hfil, List.map_map]
      rfl
    · rw [hfil, List.map_map]
      exact sourceEmbeddings_keys_nodup reps insts docs
    · rw [hfil, List.map_map, List.length_map]
      exact h
    · simp only [List.map_map, pairsOf_map]
      rfl
    · rw [List.length_map, List.map_map, List.length_map, length_pairsOf,
        List.length_map]

/-- Fixture documents for the C7 witness: two sources. -/
def c7docs : List DocumentRow :=
  [{ id := "dA", source_id := "sA" }, { id := "dB", source_id := "sB" }]

/-- Fixture instance attributed (via metadata) to document dA. -/
def c7instA : ConceptInstance :=
  { concept_id := "income_wealth_inequality", text_segment_id := "tA",
    confidence := 1, assignment_method := "keyword",
    metadata :=
      { keyword_score := none, embedding_score := none, text_length := none,
        text_preview := none, document_id := some "dA" } }

/-- Fixture instance attributed (via metadata) to document dB. -/
def c7instB : ConceptInstance :=
  { concept_id := "income_wealth_inequality", text_segment_id := "tB",
    confidence := 1, assignment_method := "keyword",
    metadata :=
      { keyword_score := none, embedding_score := none, text_length := none,
        text_preview := none, document_id := some "dB" } }

/-- Fixture representations carrying embeddings for both instances. -/
noncomputable def c7reps : List (Representation ℝ) :=
  [{ concept_instance_id := "tA", embedding := some 1, keywords := [],
     frame_summary := none },
   { concept_instance_id := "tB", embedding := some 1, keywords := [],
     frame_summary := none }]

/-- Witness for C7: with embeddings from two sources a result is returned. -/
theorem similarity_requires_two_sources_witness :
    (calculateSourceSimilarity c7reps [c7instA, c7instB] c7docs
      "income_wealth_inequality").isSome = true := by
  obtain ⟨r, hr, -⟩ :=
    (similarity_requires_two_sources c7reps [c7instA, c7instB] c7docs
      "income_wealth_inequality").2
      (le_of_eq (show (2 : ℕ)
        = (sourceEmbeddings c7reps [c7instA, c7instB] c7docs).length from rfl))
  rw [hr]
  rfl

/-- Documents for the C1 counterexample: two documents from two sources. -/
def c1docs : List DocumentRow :=
  [{ id := "docA", source_id := "s1" }, { id := "docB", source_id := "s2" }]

/-- Segment table for the C1 counterexample: the instance's segment belongs
to document docB. -/
def c1segs : List TextSegment :=
  [{ id := "seg1", document_id := "docB", text := "", position := 0,
     metadata := [] }]

/-- C1 counterexample instance: its metadata names docA while its segment
belongs to docB. -/
def c1inst : ConceptInstance :=
  { concept_id := "income_wealth_inequality", text_segment_id := "seg1",
    confidence := 1, assignment_method := "keyword",
    metadata :=
      { keyword_score := none, embedding_score := none, text_length := none,
        text_preview := none, document_id := some "docA" } }

/-- C1 counterexample: the metrics do not follow the spec's
`instance.text_segment_id → segment → segment.document_id →
document.source_id` join.  For an instance whose metadata `document_id`
(docA, source s1) disagrees with its segment's document (docB, source s2),
`analyze_coverage` attributes the instance to s1, while the claimed join
yields s2. -/
theorem source_join_via_segment_refuted :
    (analyzeCoverage [c1inst] c1docs "income_wealth_inequality").sources
      = ["s1"] ∧
    specSourceOfInstance c1segs c1docs c1inst = some "s2" ∧
    sourceOfInstance c1docs c1inst = some "s1" ∧
    ("s1" : String) ≠ "s2" :=
  ⟨rfl, rfl, rfl, by decide⟩

lemma bumpCoverage_keys (g : List (String × CoverageStats)) (src docId : String)
    (conf : ℝ) :
    (bumpCoverage g src docId conf).map Prod.fst =
      if src ∈ g.map Prod.fst then g.map Prod.fst
      else g.map Prod.fst ++ [src] := by
  induction g with
  | nil => simp [bumpCoverage]
  | cons hd tl ih =>
    obtain ⟨s, st⟩ := hd
    by_cases hs : s = src
    · subst hs
      simp [bumpCoverage]
    · simp only [bumpCoverage, if_neg hs, List.map_cons, List.mem_cons, ih]
      have hne : ¬(src = s) := fun h => hs h.symm
      by_cases hmem : src ∈ tl.map Prod.fst
      · simp [hmem, hne]
      · simp [hmem, hne]

lemma coverageStep_of_join_none (docs : List DocumentRow)
    (g : List (String × CoverageStats)) (inst : ConceptInstance)
    (h : sourceOfInstance docs inst = none) : coverageStep docs g inst = g := by
  unfold coverageStep
  unfold sourceOfInstance at h
  rcases hd : metadataDocId inst with _ | d
  · rfl
  · rw [hd] at h
    have h2 : Option.map (fun row => row.source_id) (lookupDocument docs d)
        = none := h
    show (match lookupDocument docs d with
      | none => g
      | some row => bumpCoverage g row.source_id d inst.confidence) = g
    rcases hl : lookupDocument docs d with _ | row
    · rfl
    · rw [hl] at h2
      simp at h2

lemma coverageStep_keys (docs : List DocumentRow)
    (g : List (String × CoverageStats)) (inst : ConceptInstance) :
    (coverageStep docs g inst).map Prod.fst =
      match sourceOfInstance docs inst with
      | none => g.map Prod.fst
      | some src =>
        if src ∈ g.map Prod.fst then g.map Prod.fst
        else g.map Prod.fst ++ [src] := by
  unfold coverageStep sourceOfInstance
  rcases hd : metadataDocId inst with _ | d
  · rfl
  · show (match lookupDocument docs d with
        | none => g
        | some row => bumpCoverage g row.source_id d inst.confidence).map Prod.fst
      = match Option.map (fun row => row.source_id) (lookupDocument docs d) with
        | none => g.map Prod.fst
        | some src =>
          if src ∈ g.map Prod.fst then g.map Prod.fst
          else g.map Prod.fst ++ [src]
    rcases lookupDocument docs d with _ | row
    · rfl
    · exact bumpCoverage_keys g row.source_id d inst.confidence

lemma coverageStats_keys_aux (docs : List DocumentRow)
    (insts : List ConceptInstance) :
    ∀ g : List (String × CoverageStats),
      (insts.foldl (coverageStep docs) g).map Prod.fst =
        (insts.filterMap (sourceOfInstance docs)).foldl
          (fun ks s => if s ∈ ks then ks else ks ++ [s]) (g.map Prod.fst) := by
  induction insts with
  | nil => intro g; rfl
  | cons i tl ih =>
    intro g
    rw [List.foldl_cons, ih, List.filterMap_cons]
    rcases hsrc : sourceOfInstance docs i with _ | src
    · rw [show coverageStep docs g i = g from coverageStep_of_join_none docs g i hsrc]
    · rw [List.foldl_cons]
      congr 1
      rw [coverageStep_keys, hsrc]

lemma sourceEmbeddingsStep_of_join_none {V : Type}
    (reps : List (Representation V)) (docs : List DocumentRow)
    (g : List (String × List V)) (inst : ConceptInstance)
    (h : sourceOfInstance docs inst = none) :
    sourceEmbeddingsStep reps docs g inst = g := by
  unfold sourceEmbeddingsStep
  rcases dictGetRep reps inst.text_segment_id with _ | rep
  · rfl
  · show (match rep.embedding with
      | none => g
      | some emb =>
        match sourceOfInstance docs inst with
        | none => g
        | some src => addToGroup g src emb) = g
    rcases rep.embedding with _ | emb
    · rfl
    · show (match sourceOfInstance docs inst with
        | none => g
        | some src => addToGroup g src emb) = g
      rw [h]

lemma lexicalStep_of_join_none {V : Type} (reps : List (Representation V))
    (docs : List DocumentRow) (g : List (String × List (String × ℕ)))
    (inst : ConceptInstance) (h : sourceOfInstance docs inst = none) :
    lexicalStep reps docs g inst = g := by
  unfold lexicalStep
  rcases dictGetRep reps inst.text_segment_id with _ | rep
  · rfl
  · show (if rep.keywords.isEmpty then g
      else
        match sourceOfInstance docs inst with
        | none => g
        | some src => rep.keywords.foldl (fun g kw => addKeyword g src kw) g) = g
    rw [h]
    split <;> rfl

/-- C1 (amended): the three metric computations attribute an instance to a
source by reading `document_id` from the instance's own metadata and
resolving it in the document table — not by joining through the segment
table.  The grouped source keys of `analyze_coverage` are exactly the
deduplicated successful metadata joins, and an instance whose join fails
(missing or empty metadata `document_id`, or no matching document row) is
silently excluded from all three metrics: prepending it changes no result,
and no computation aborts. -/
theorem source_join_is_metadata_based {V : Type} [NormedAddCommGroup V]
    [InnerProductSpace ℝ V] (reps : List (Representation V))
    (insts : List ConceptInstance) (docs : List DocumentRow) (cid : String)
    (inst : ConceptInstance) (hfail : sourceOfInstance docs inst = none) :
    (analyzeCoverage insts docs cid).sources
      = firstDedup (insts.filterMap (sourceOfInstance docs)) ∧
    analyzeCoverage (inst :: insts) docs cid = analyzeCoverage insts docs cid ∧
    sourceEmbeddings reps (inst :: insts) docs
      = sourceEmbeddings reps insts docs ∧
    analyzeLexicalPatterns reps (inst :: insts) docs cid
      = analyzeLexicalPatterns reps insts docs cid := by
  refine ⟨?_, ?_, ?_, ?_⟩
  · unfold analyzeCoverage coverageStatsOf
    exact coverageStats_keys_aux docs insts []
  · unfold analyzeCoverage coverageStatsOf
    rw [List.foldl_cons, coverageStep_of_join_none docs [] inst hfail]
  · unfold sourceEmbeddings
    rw [List.foldl_cons, sourceEmbeddingsStep_of_join_none reps docs [] inst hfail]
  · unfold analyzeLexicalPatterns sourceKeywordCounts
    rw [List.foldl_cons, lexicalStep_of_join_none reps docs [] inst hfail]

/-- An instance carrying no document id in its metadata (as produced by
`assign_concept` before the parquet round trip). -/
def c1orphan : ConceptInstance :=
  { concept_id := "income_wealth_inequality", text_segment_id := "seg9",
    confidence := 1, assignment_method := "keyword",
    metadata :=
      { keyword_score := none, embedding_score := none, text_length := none,
        text_preview := none, document_id := none } }

/-- Witness for C1 (amended): an instance with no metadata document id is
silently excluded from all three metrics. -/
theorem source_join_is_metadata_based_witness :
    (analyzeCoverage [c1inst] c1docs "income_wealth_inequality").sources
      = firstDedup ([c1inst].filterMap (sourceOfInstance c1docs)) ∧
    analyzeCoverage (c1orphan :: [c1inst]) c1docs "income_wealth_inequality"
      = analyzeCoverage [c1inst] c1docs "income_wealth_inequality" ∧
    sourceEmbeddings ([] : List (Representation ℝ)) (c1orphan :: [c1inst]) c1docs
      = sourceEmbeddings ([] : List (Representation ℝ)) [c1inst] c1docs ∧
    analyzeLexicalPatterns ([] : List (Representation ℝ)) (c1orphan :: [c1inst])
        c1docs "income_wealth_inequality"
      = analyzeLexicalPatterns ([] : List (Representation ℝ)) [c1inst] c1docs
        "income_wealth_inequality" :=
  source_join_is_metadata_based ([] : List (Representation ℝ)) [c1inst] c1docs
    "income_wealth_inequality" c1orphan rfl

/-! ## Machinery for the keyword-ranking claim -/

/-- Position of the first occurrence of `w` in a list (the list's length
when absent). -/
def firstIdx {α : Type} [DecidableEq α] (w : α) : List α → ℕ
  | [] => 0
  | a :: t => if a = w then 0 else firstIdx w t + 1

lemma firstIdx_cons_self {α : Type} [DecidableEq α] (w : α) (t : List α) :
    firstIdx w (w :: t) = 0 := by
  simp [firstIdx]

lemma firstIdx_cons_ne {α : Type} [DecidableEq α] (w a : α) (t : List α)
    (h : a ≠ w) : firstIdx w (a :: t) = firstIdx w t + 1 := by
  simp [firstIdx, h]

/-- The strict ranking the extractor's keyword list follows: strictly more
occurrences in the filtered token list first; under tied counts, the token
whose first occurrence comes earlier first (`firstDedup ws` lists the
distinct tokens in first-occurrence order). -/
def tokenRank (ws : List (List Char)) (a b : List Char) : Prop :=
  ws.count b < ws.count a ∨
    (ws.count a = ws.count b
      ∧ firstIdx a (firstDedup ws) < firstIdx b (firstDedup ws))

lemma foldl_dedup_mem {α : Type} [DecidableEq α] (l : List α) :
    ∀ (acc : List α) (x : α),
      x ∈ l.foldl (fun acc a => if a ∈ acc then acc else acc ++ [a]) acc
        ↔ x ∈ acc ∨ x ∈ l := by
  induction l with
  | nil => simp
  | cons a t ih =>
    intro acc x
    rw [List.foldl_cons, ih]
    by_cases ha : a ∈ acc
    · rw [if_pos ha]
      simp only [List.mem_cons]
      constructor
      · rintro (h | h)
        · exact Or.inl h
        · exact Or.inr (Or.inr h)
      · rintro (h | h | h)
        · exact Or.inl h
        · exact Or.inl (h ▸ ha)
        · exact Or.inr h
    · rw [if_neg ha]
      simp only [List.mem_append, List.mem_singleton, List.mem_cons]
      tauto

lemma mem_firstDedup {α : Type} [DecidableEq α] (l : List α) (x : α) :
    x ∈ firstDedup l ↔ x ∈ l := by
  unfold firstDedup
  rw [foldl_dedup_mem]
  simp

lemma foldl_dedup_nodup {α : Type} [DecidableEq α] (l : List α) :
    ∀ acc : List α, acc.Nodup →
      (l.foldl (fun acc a => if a ∈ acc then acc else acc ++ [a]) acc).Nodup := by
  induction l with
  | nil => exact fun acc h => h
  | cons a t ih =>
    intro acc hacc
    rw [List.foldl_cons]
    by_cases ha : a ∈ acc
    · rw [if_pos ha]
      exact ih acc hacc
    · rw [if_neg ha]
      refine ih _ ?_
      rw [List.nodup_append]
      exact ⟨hacc, List.nodup_singleton a, by simpa using ha⟩

lemma firstDedup_nodup {α : Type} [DecidableEq α] (l : List α) :
    (firstDedup l).Nodup :=
  foldl_dedup_nodup l [] List.nodup_nil

lemma tokenCounter_map_fst (ws : List (List Char)) :
    (tokenCounter ws).map Prod.fst = firstDedup ws := by
  unfold tokenCounter
  rw [List.map_map]
  exact List.map_id _

lemma length_withIdx {α : Type} (n : ℕ) (l : List α) :
    (withIdx n l).length = l.length := by
  induction l generalizing n with
  | nil => rfl
  | cons a t ih => simp [withIdx, ih]

lemma map_snd_withIdx {α : Type} (n : ℕ) (l : List α) :
    (withIdx n l).map Prod.snd = l := by
  induction l generalizing n with
  | nil => rfl
  | cons a t ih => simp [withIdx, ih]

lemma mem_withIdx {α : Type} (n : ℕ) (l : List α) (p : ℕ × α)
    (hp : p ∈ withIdx n l) : n ≤ p.1 ∧ p.2 ∈ l := by
  induction l generalizing n with
  | nil => cases hp
  | cons a t ih =>
    simp only [withIdx] at hp
    rcases List.mem_cons.mp hp with h | h
    · subst h
      exact ⟨le_refl n, List.mem_cons_self a t⟩
    · obtain ⟨h1, h2⟩ := ih (n + 1) h
      exact ⟨by omega, List.mem_cons_of_mem a h2⟩

lemma map_fst_withIdx_nodup {α : Type} (n : ℕ) (l : List α) :
    ((withIdx n l).map Prod.fst).Nodup := by
  induction l generalizing n with
  | nil => simp [withIdx]
  | cons a t ih =>
    simp only [withIdx, List.map_cons]
    refine List.nodup_cons.mpr ⟨?_, ih (n + 1)⟩
    intro hmem
    obtain ⟨p, hp, hpe⟩ := List.mem_map.mp hmem
    have := (mem_withIdx (n + 1) t p hp).1
    omega

lemma withIdx_tokenCounter_spec (ws : List (List Char)) :
    ∀ l : List (List Char), l.Nodup → ∀ (n : ℕ) (q : ℕ × (List Char × ℕ)),
      q ∈ withIdx n (l.map fun w => (w, ws.count w)) →
      q.2.2 = ws.count q.2.1 ∧ q.1 = n + firstIdx q.2.1 l ∧ q.2.1 ∈ l := by
  intro l
  induction l with
  | nil =>
    intro _ n q hq
    cases hq
  | cons a t ih =>
    intro hnd n q hq
    simp only [List.map_cons, withIdx] at hq
    rcases List.mem_cons.mp hq with h | h
    · subst h
      refine ⟨rfl, ?_, List.mem_cons_self a t⟩
      rw [firstIdx_cons_self]
      rfl
    · obtain ⟨h1, h2, h3⟩ := ih (List.nodup_cons.mp hnd).2 (n + 1) q h
      have hne : q.2.1 ≠ a := fun he => (List.nodup_cons.mp hnd).1 (he ▸ h3)
      refine ⟨h1, ?_, List.mem_cons_of_mem a h3⟩
      rw [firstIdx_cons_ne _ _ _ (fun hh => hne hh.symm)]
      omega

lemma pySorted_perm {α : Type} (l : List (α × ℕ)) :
    List.Perm (pySortedByCountDesc l) l := by
  unfold pySortedByCountDesc
  have h := (List.perm_insertionSort (@rankRel α) (withIdx 0 l)).map Prod.snd
  rwa [map_snd_withIdx] at h

lemma mostCommon_spec (ws : List (List Char)) (n : ℕ) :
    ((mostCommon ws n).map Prod.fst).Nodup ∧
    (∀ w ∈ (mostCommon ws n).map Prod.fst, w ∈ firstDedup ws) ∧
    ((mostCommon ws n).map Prod.fst).length = min n (firstDedup ws).length ∧
    ((mostCommon ws n).map Prod.fst).Chain' (tokenRank ws) ∧
    (∀ w ∈ firstDedup ws, w ∉ (mostCommon ws n).map Prod.fst →
      ∀ k ∈ (mostCommon ws n).map Prod.fst, tokenRank ws k w) := by
  have hCW : tokenCounter ws = (firstDedup ws).map (fun w => (w, ws.count w)) := rfl
  set S := (withIdx 0 (tokenCounter ws)).insertionSort rankRel with hSdef
  have hsorted : S.Sorted rankRel := List.sorted_insertionSort rankRel _
  have hperm : List.Perm S (withIdx 0 (tokenCounter ws)) :=
    List.perm_insertionSort rankRel _
  have hspec : ∀ q ∈ S, q.2.2 = ws.count q.2.1
      ∧ q.1 = firstIdx q.2.1 (firstDedup ws) ∧ q.2.1 ∈ firstDedup ws := by
    intro q hq
    have hqW : q ∈ withIdx 0 (tokenCounter ws) := hperm.subset hq
    rw [hCW] at hqW
    obtain ⟨h1, h2, h3⟩ :=
      withIdx_tokenCounter_spec ws (firstDedup ws) (firstDedup_nodup ws) 0 q hqW
    exact ⟨h1, by omega, h3⟩
  have hmost : mostCommon ws n = (S.map Prod.snd).take n := rfl
  have htts : (mostCommon ws n).map Prod.fst = (S.take n).map (fun q => q.2.1) := by
    rw [hmost, ← List.map_take, List.map_map]
    rfl
  have htokS : S.map (fun q => q.2.1) = (S.map Prod.snd).map Prod.fst := by
    rw [List.map_map]
    rfl
  have htokperm : List.Perm (S.map (fun q => q.2.1)) (firstDedup ws) := by
    have h := hperm.map (fun q => q.2.1)
    have h2 : (withIdx 0 (tokenCounter ws)).map (fun q => q.2.1)
        = firstDedup ws := by
      rw [show (fun q : ℕ × (List Char × ℕ) => q.2.1)
          = (Prod.fst ∘ Prod.snd) from rfl]
      rw [← List.map_map, map_snd_withIdx, tokenCounter_map_fst]
    rw [h2] at h
    exact h
  have htoknodup : (S.map (fun q => q.2.1)).Nodup :=
    htokperm.nodup_iff.mpr (firstDedup_nodup ws)
  have htake_sub : List.Sublist (S.take n) S := List.take_sublist n S
  have hNodup : ((mostCommon ws n).map Prod.fst).Nodup := by
    rw [htts]
    exact htoknodup.sublist (htake_sub.map _)
  have hmem : ∀ w ∈ (mostCommon ws n).map Prod.fst, w ∈ firstDedup ws := by
    intro w hw
    rw [htts] at hw
    obtain ⟨q, hq, hqe⟩ := List.mem_map.mp hw
    exact hqe ▸ (hspec q (htake_sub.subset hq)).2.2
  have hlen : ((mostCommon ws n).map Prod.fst).length
      = min n (firstDedup ws).length := by
    rw [htts, List.length_map, List.length_take]
    congr 1
    rw [hperm.length_eq, length_withIdx, hCW, List.length_map]
  have hne2 : S.Pairwise (fun a b => a.1 ≠ b.1) := by
    have hfst : (S.map Prod.fst).Nodup := by
      rw [(hperm.map Prod.fst).nodup_iff]
      exact map_fst_withIdx_nodup 0 _
    exact List.pairwise_map.mp hfst
  have hPS : S.Pairwise (fun a b => tokenRank ws a.2.1 b.2.1) := by
    refine (hsorted.and hne2).imp_of_mem ?_
    intro a b ha hb hab
    obtain ⟨hca, hia, -⟩ := hspec a ha
    obtain ⟨hcb, hib, -⟩ := hspec b hb
    rcases hab.1 with h | ⟨heq, hle⟩
    · exact Or.inl (by rw [← hca, ← hcb]; exact h)
    · refine Or.inr ⟨by rw [← hca, ← hcb]; exact heq, ?_⟩
      have hne3 : a.1 ≠ b.1 := hab.2
      rw [← hia, ← hib]
      omega
  have hchain : ((mostCommon ws n).map Prod.fst).Chain' (tokenRank ws) := by
    rw [htts]
    exact (List.pairwise_map.mpr (hPS.sublist htake_sub)).chain'
  have htop : ∀ w ∈ firstDedup ws, w ∉ (mostCommon ws n).map Prod.fst →
      ∀ k ∈ (mostCommon ws n).map Prod.fst, tokenRank ws k w := by
    intro w hw hnotin k hk
    have hwS : w ∈ S.map (fun q => q.2.1) := htokperm.mem_iff.mpr hw
    obtain ⟨q, hqS, hqe⟩ := List.mem_map.mp hwS
    have hqS2 : q ∈ S.take n ++ S.drop n := by
      rw [List.take_append_drop]
      exact hqS
    have hPS2 : (S.take n ++ S.drop n).Pairwise
        (fun a b => tokenRank ws a.2.1 b.2.1) := by
      rw [List.take_append_drop]
      exact hPS
    have hq_drop : q ∈ S.drop n := by
      rcases List.mem_append.mp hqS2 with h | h
      · exact absurd (by rw [htts]; exact List.mem_map.mpr ⟨q, h, hqe⟩) hnotin
      · exact h
    rw [htts] at hk
    obtain ⟨p, hp, hpe⟩ := List.mem_map.mp hk
    have hrel := (List.pairwise_append.mp hPS2).2.2 p hp q hq_drop
    rw [hpe, hqe] at hrel
    exact hrel
  exact ⟨hNodup, hmem, hlen, hchain, htop⟩

/-- The token-level keyword ranking of `_extract_keywords`, before the final
conversion of the counted pairs back to strings. -/
def topTokens (text : String) (excl : List String) (n : ℕ) : List (List Char) :=
  (mostCommon (filteredTokens text excl) n).map Prod.fst

/-- C6: with keyword extraction enabled, the extractor's keyword list is the
top `keyword_count` filtered tokens — tokens of the normalized text of
length > 2 outside the stop-word set extended by the lowercased exclusion
list — ranked by frequency descending with ties broken by first-occurrence
order.  The ranking is deterministic: the output is duplicate-free, has
length `min keyword_count (number of distinct kept tokens)`, consecutive
tokens strictly decrease in rank, every kept token outranks every dropped
one, and the default `keyword_count` is 10. -/
theorem keyword_extraction_ranking (e : RepresentationExtractor) (text : String)
    (excl : List String) (hE : e.extract_keywords = true) :
    extractKeywordsFn e text excl
      = (topTokens text excl e.keyword_count).map String.mk ∧
    (∀ w ∈ filteredTokens text excl,
      w ∈ splitWS (pyNormalizeText text.data) ∧ 2 < w.length
        ∧ w ∉ stopSet excl) ∧
    (topTokens text excl e.keyword_count).Nodup ∧
    (∀ w ∈ topTokens text excl e.keyword_count, w ∈ filteredTokens text excl) ∧
    (topTokens text excl e.keyword_count).length
      = min e.keyword_count (firstDedup (filteredTokens text excl)).length ∧
    (topTokens text excl e.keyword_count).Chain'
      (tokenRank (filteredTokens text excl)) ∧
    (∀ w ∈ firstDedup (filteredTokens text excl),
      w ∉ topTokens text excl e.keyword_count →
      ∀ k ∈ topTokens text excl e.keyword_count,
        tokenRank (filteredTokens text excl) k w) ∧
    defaultKeywordCount = 10 := by
  obtain ⟨hN, hM, hL, hC, hT⟩ :=
    mostCommon_spec (filteredTokens text excl) e.keyword_count
  refine ⟨?_, ?_, hN, ?_, hL, hC, hT, rfl⟩
  · unfold extractKeywordsFn topTokens
    rw [hE]
    rw [if_pos rfl, List.map_map]
    rfl
  · intro w hw
    unfold filteredTokens at hw
    obtain ⟨h1, h2⟩ := List.mem_filter.mp hw
    unfold keptToken at h2
    rw [Bool.and_eq_true, decide_eq_true_iff, Bool.not_eq_true'] at h2
    refine ⟨h1, h2.1, ?_⟩
    simpa using h2.2
  · intro w hw
    exact (mem_firstDedup _ _).mp (hM w hw)

/-- Witness for C6 at a concrete text with tied counts. -/
theorem keyword_extraction_ranking_witness :
    extractKeywordsFn (mkRepresentationExtractor true true 10 true)
        "The gap gap widened widened widened" []
      = (topTokens "The gap gap widened widened widened" [] 10).map String.mk ∧
    (topTokens "The gap gap widened widened widened" [] 10).Nodup ∧
    (topTokens "The gap gap widened widened widened" [] 10).length
      = min 10 (firstDedup
          (filteredTokens "The gap gap widened widened widened" [])).length ∧
    (topTokens "The gap gap widened widened widened" [] 10).Chain'
      (tokenRank (filteredTokens "The gap gap widened widened widened" [])) ∧
    defaultKeywordCount = 10 := by
  obtain ⟨h1, -, h3, -, h5, h6, -, h8⟩ :=
    keyword_extraction_ranking (mkRepresentationExtractor true true 10 true)
      "The gap gap widened widened widened" [] rfl
  exact ⟨h1, h3, h5, h6, h8⟩

end CogFrame
